import Mathlib

/-!
# Verification of the `talking-robot` waveform pipeline (`Waveform.py`)

A shallow embedding of the audio-to-envelope-to-frame pipeline of
`Waveform.py`.  Python floats are modelled as real numbers (`ℝ`); the
index/counting arithmetic that the code performs with Python ints and
floats (`int(...)` truncation, `range`, slicing) is modelled exactly over
`ℕ`, `ℤ` and `ℚ`.  A numpy operation that raises on some input is modelled
with `Option`/`Except`; the `none`/`.error` value stands for the raised
exception.
-/

namespace TalkingRobot

/-- Truncation toward zero, the semantics of Python's `int()` applied to a
nonnegative-or-negative rational: floor for nonnegative values, ceiling for
negative ones. -/
def pyInt (q : ℚ) : ℤ := if 0 ≤ q then ⌊q⌋ else ⌈q⌉

/-- Python slice `l[a:b]` for `0 ≤ a ≤ b` (the only form the source uses). -/
def pySlice (l : List ℝ) (a b : ℕ) : List ℝ := (l.drop a).take (b - a)

/-- The number of elements of Python's `range(0, n, stride)` for a positive
`stride` (with `n ≤ 0` represented by `n = 0` after natural subtraction):
`⌈n / stride⌉`. -/
def numOffsets (n stride : ℕ) : ℕ := if n = 0 then 0 else (n - 1) / stride + 1

/-- Python's `range(0, n, stride)` for a positive `stride`: the offsets
`0, stride, 2*stride, ...` below `n`. -/
def pyRangeStep (n stride : ℕ) : List ℕ :=
  (List.range (numOffsets n stride)).map (fun i => i * stride)

/-- `np.pad(l, k)`: `k` zeros on each side. -/
def npPad (l : List ℝ) (k : ℕ) : List ℝ :=
  List.replicate k 0 ++ l ++ List.replicate k 0

/-- `np.pad(l, (a, b))`: `a` zeros in front, `b` zeros behind. -/
def npPad2 (l : List ℝ) (a b : ℕ) : List ℝ :=
  List.replicate a 0 ++ l ++ List.replicate b 0

/-- `arr.max()` of a numpy array; numpy raises on an empty array, modelled
by `none`. -/
def npMax (l : List ℝ) : Option ℝ :=
  match l with
  | [] => none
  | x :: xs => some (xs.foldl max x)

/-- `arr.mean()` of a numpy array (sum divided by length; `0/0 = 0` for the
empty array, which numpy reports as NaN — never reached by the claims). -/
noncomputable def npMean (l : List ℝ) : ℝ := l.sum / l.length

/-- `np.maximum(frame, 0).mean()`: the rectified mean of one pooling window
(line 96 of `Waveform.py`). -/
noncomputable def rectMean (frame : List ℝ) : ℝ :=
  npMean (frame.map (fun x => max x 0))

/-- `sigmoid` from `Waveform.py` line 82: `1 / (1 + np.exp(-x))`. -/
noncomputable def sigmoid (x : ℝ) : ℝ := 1 / (1 + Real.exp (-x))

/-- The loudness compressor applied to every pooled value
(`Waveform.py` line 99): `1.9 * (sigmoid(2.5 * x) - 0.5)`. -/
noncomputable def compress (x : ℝ) : ℝ := 1.9 * (sigmoid (2.5 * x) - 0.5)

/-- `envelope(wav, window, stride)` from `Waveform.py` lines 86-100:
pad by `window // 2` zeros on each side, take the rectified mean of each
stride-aligned window starting strictly below `len(padded) - window`, and
compress every pooled value. -/
noncomputable def envelope (wav : List ℝ) (window stride : ℕ) : List ℝ :=
  let padded := npPad wav (window / 2)
  ((pyRangeStep (padded.length - window) stride).map
    (fun off => rectMean (pySlice padded off (off + window)))).map compress

/-- `interpole` from `Waveform.py` line 142. -/
noncomputable def interpole (x1 y1 x2 y2 x : ℝ) : ℝ :=
  y1 + (y2 - y1) * (x - x1) / (x2 - x1)

/-- `np.clip(x, lo, hi)` for scalars. -/
noncomputable def npClip (x lo hi : ℝ) : ℝ := max lo (min x hi)

/-- `np.hanning(M)`: the Hann taper `0.5 - 0.5*cos(2*pi*n/(M-1))` for
`n = 0, ..., M-1`; numpy returns `[1]` for `M = 1` and `[]` for `M = 0`. -/
noncomputable def hanning (M : ℕ) : List ℝ :=
  if M = 1 then [1]
  else (List.range M).map
    (fun n => 0.5 - 0.5 * Real.cos (2 * Real.pi * n / (M - 1)))

/-- The continuous audio position of output frame `idx`
(`Waveform.py` line 211): `(((idx / rate)) * sr) / stride / bars`. -/
def posOf (idx rate : ℕ) (sr : ℚ) (stride bars : ℕ) : ℚ :=
  ((idx / rate : ℚ) * sr) / stride / bars

/-- The loudness-adaptive transition speed exactly as the code computes it
(`Waveform.py` lines 220-221) from the maximum `m` of the upcoming window:
`np.clip(interpole(-6, 0.5, 0, 2, math.log10(1e-4 + m) * 10), 0.5, 2)`. -/
noncomputable def codeSpeedup (m : ℝ) : ℝ :=
  npClip (interpole (-6) 0.5 0 2 (Real.logb 10 (1e-4 + m) * 10)) 0.5 2

/-- One frame's blended, tapered window for one channel: the body of the
frame loop of `visualize` (`Waveform.py` lines 211-224).  The offset
`int(pos)` is nonnegative for every nonnegative sample rate, so the
truncated offset is taken with `Int.toNat`.  `none` models the `ValueError`
numpy raises when `env2.max()` is taken on an empty slice. -/
noncomputable def frameAt (speed : ℝ) (rate : ℕ) (sr : ℚ) (stride bars : ℕ)
    (env : List ℝ) (idx : ℕ) : Option (List ℝ) :=
  let pos : ℚ := posOf idx rate sr stride bars
  let off : ℤ := pyInt pos
  let loc : ℚ := pos - off
  let env1 := pySlice env (off.toNat * bars) ((off.toNat + 1) * bars)
  let env2 := pySlice env ((off.toNat + 1) * bars) ((off.toNat + 2) * bars)
  match npMax env2 with
  | none => none
  | some m =>
      let w : ℝ := sigmoid (speed * codeSpeedup m * ((loc : ℝ) - 0.5))
      let denv := List.zipWith (fun a b => (1 - w) * a + w * b) env1 env2
      some (List.zipWith (fun a b => a * b) denv (hanning bars))

/-- Modelled from the spec (C1): the transition speed as the spec words it —
`maxvol = 10 * log10(1e-4 + max(window2))` mapped linearly from the range
`[-6, 0]` to the range `[0.5, 2.0]` and clamped to `[0.5, 2.0]`. -/
noncomputable def specSpeedup (m : ℝ) : ℝ :=
  min (max (0.5 + (2 - 0.5) * ((10 * Real.logb 10 (1e-4 + m) - (-6)) / (0 - (-6)))) 0.5) 2

/-- Modelled from the spec (C1): the per-frame blend as the spec states it —
`pos = (idx / framerate) * sample_rate / stride / bars`, `loc` its
fractional part, `w = sigmoid(base_speed * speedup * (loc - 0.5))`, and the
produced window `(1 - w) * window1 + w * window2` times a bar-count-length
Hann taper. -/
noncomputable def specFrameAt (speed : ℝ) (rate : ℕ) (sr : ℚ) (stride bars : ℕ)
    (env : List ℝ) (idx : ℕ) : Option (List ℝ) :=
  let pos : ℚ := ((idx : ℚ) / rate) * sr / stride / bars
  let loc : ℚ := Int.fract pos
  let window1 := pySlice env ((⌊pos⌋).toNat * bars) (((⌊pos⌋).toNat + 1) * bars)
  let window2 := pySlice env (((⌊pos⌋).toNat + 1) * bars) (((⌊pos⌋).toNat + 2) * bars)
  match npMax window2 with
  | none => none
  | some m =>
      let w : ℝ := sigmoid (speed * specSpeedup m * ((loc : ℝ) - 0.5))
      let denv := List.zipWith (fun a b => (1 - w) * a + w * b) window1 window2
      some (List.zipWith (fun a b => a * b) denv (hanning bars))

/-- One straight line segment emitted by the cairo drawing code of
`draw_env` (`Waveform.py` lines 126-138), in the unit square after
`ctx.scale`: a vertical stroke at abscissa `x` from ordinate `y0` to `y1`,
with an rgb color and an alpha. -/
structure Segment where
  x : ℝ
  y0 : ℝ
  y1 : ℝ
  color : ℝ × ℝ × ℝ
  alpha : ℝ

/-- The two segments drawn for channel `i` at bar position `step` in
`draw_env` (`Waveform.py` lines 128-138): `half = 0.5 * e / K`,
`midrule = (1 + 2*i) / (2*K)`; an upper stroke from `midrule - half` to
`midrule` at full opacity and a lower stroke from `midrule` to
`midrule + 0.9 * half` at alpha `0.8`. -/
noncomputable def barSegs (K : ℕ) (e : ℝ) (i : ℕ) (x : ℝ)
    (c : ℝ × ℝ × ℝ) : List Segment :=
  let half : ℝ := 0.5 * e / K
  let midrule : ℝ := (1 + 2 * i) / (2 * K)
  [{ x := x, y0 := midrule - half, y1 := midrule, color := c, alpha := 1 },
   { x := x, y0 := midrule, y1 := midrule + 0.9 * half, color := c, alpha := 0.8 }]

/-- The bar width of `draw_env` (`Waveform.py` lines 120-121):
`width = 1 / (T * (1 + 2 * pad_ratio))` with the 0.1 padding fraction. -/
noncomputable def barWidth (T : ℕ) : ℝ := 1 / (T * (1 + 2 * 0.1))

/-- The abscissa of bar `step` in `draw_env` (`Waveform.py` lines 122-123,
132): `pad + step * delta` with `pad = pad_ratio * width` and
`delta = 2 * pad + width`. -/
noncomputable def barX (T step : ℕ) : ℝ :=
  0.1 * barWidth T + step * (2 * (0.1 * barWidth T) + barWidth T)

/-- All segments drawn by `draw_env` (`Waveform.py` lines 118-138):
`K = len(envs)`, `T = len(envs[0])`, iterating bar positions outermost and
channels innermost. -/
noncomputable def drawEnvSegments (envs : List (List ℝ))
    (fgColors : List (ℝ × ℝ × ℝ)) : List Segment :=
  let K := envs.length
  let T := (envs.headD []).length
  (List.range T).flatMap (fun step =>
    (List.range K).flatMap (fun i =>
      barSegs K ((envs.getD i []).getD step 0) i (barX T step)
        (fgColors.getD i (0, 0, 0))))

/-- The failure modes of the pipeline that the embedding models.  Each
constructor records the concrete raise site in `Waveform.py`; the spec's
error taxonomy names the same failures (`ChannelMismatchError` for the
stereo assertion, `InvalidParameterError` for the zero-step `range`). -/
inductive VisError where
  /-- the failed `assert wav.shape[0] == 2, 'stereo requires stereo audio
  file'` of `visualize` line 187; the spec's `ChannelMismatchError`. -/
  | channelMismatch
  /-- `range(0, n, 0)` in `envelope` line 94 raises
  `ValueError: range() arg 3 must not be zero`; the failure the spec names
  `InvalidParameterError` for a derived stride below 1. -/
  | zeroStepRange
  /-- `np.pad` with a negative width in `envelope` line 92 raises; never
  reachable from nonnegative sample rates and durations. -/
  | negativePad
  deriving DecidableEq, Repr

/-- `wav.mean(0)` of a channel-major numpy array: the elementwise mean over
channels (`Waveform.py` line 191).  For the rectangular arrays the decoder
produces, entry `j` is the sum of the channels' `j`-th samples over the
channel count. -/
noncomputable def npMean0 (a : List (List ℝ)) : List ℝ :=
  (List.range (a.headD []).length).map
    (fun j => (a.map (fun row => row.getD j 0)).sum / a.length)

/-- The channel-selection step of `visualize` (`Waveform.py` lines 186-192):
with `stereo` both channels are kept after asserting there are exactly two;
otherwise all channels are averaged into one mono channel. -/
noncomputable def selectChannels (stereo : Bool) (wav : List (List ℝ)) :
    Except VisError (List (List ℝ)) :=
  if stereo then
    if wav.length = 2 then .ok [wav.getD 0 [], wav.getD 1 []]
    else .error .channelMismatch
  else .ok [npMean0 wav]

/-- `wav.std()`: numpy's population standard deviation
`sqrt(mean((x - mean(x))^2))`. -/
noncomputable def npStd (l : List ℝ) : ℝ :=
  Real.sqrt (npMean (l.map (fun x => (x - npMean l) ^ 2)))

/-- Division as numpy floats perform it at `Waveform.py` line 194:
dividing by zero does not raise, it produces NaN (for `0/0`) or infinity,
modelled by `none`; numpy only emits a runtime warning. -/
noncomputable def nanDiv (a b : ℝ) : Option ℝ :=
  if b = 0 then none else some (a / b)

/-- The normalization `wav / wav.std()` of `Waveform.py` lines 193-194 with
the division-by-zero behaviour of numpy made explicit: a zero-variance
channel yields a NaN (`none`) in every position, and no exception. -/
noncomputable def normalizeChannelN (l : List ℝ) : List (Option ℝ) :=
  l.map (fun x => nanDiv x (npStd l))

/-- The normalization `wav / wav.std()` over `ℝ` (real division, with
`x / 0 = 0`); used by the whole-pipeline model, whose claims do not depend
on the sample values.  The zero-variance NaN behaviour is modelled exactly
by `normalizeChannelN`. -/
noncomputable def normalizeChannel (l : List ℝ) : List ℝ :=
  l.map (fun x => x / npStd l)

/-- `window = int(sr * time / bars)` (`Waveform.py` line 196). -/
def derivedWindow (sr time bars : ℚ) : ℤ := pyInt (sr * time / bars)

/-- `stride = int(window / oversample)` (`Waveform.py` line 197). -/
def derivedStride (window : ℤ) (oversample : ℚ) : ℤ :=
  pyInt ((window : ℚ) / oversample)

/-- Modelled from the spec (C6): the spec derives the window with ordinary
rounding, `window = round(sample_rate * time_per_frame / bars)`. -/
def specDerivedWindow (sr time bars : ℚ) : ℤ := round (sr * time / bars)

/-- Modelled from the spec (C6): `stride = round(window / oversample)`. -/
def specDerivedStride (window : ℤ) (oversample : ℚ) : ℤ :=
  round ((window : ℚ) / oversample)

/-- `envelope` as called with the derived (possibly nonpositive) `window`
and `stride` ints.  A negative pad width makes `np.pad` raise; a zero
stride makes `range` raise; a negative stride gives an empty `range` and
hence an empty envelope; otherwise the pure `envelope` runs. -/
noncomputable def envelopeE (wav : List ℝ) (window stride : ℤ) :
    Except VisError (List ℝ) :=
  if window < 0 then .error .negativePad
  else if stride = 0 then .error .zeroStepRange
  else if stride < 0 then .ok []
  else .ok (envelope wav window.toNat stride.toNat)

/-- The head/tail padding applied to each envelope before the frame loop
(`Waveform.py` line 202): `np.pad(env, (bars // 2, 2 * bars))`. -/
def envPadded (env : List ℝ) (bars : ℕ) : List ℝ := npPad2 env (bars / 2) (2 * bars)

/-- `frames = int(rate * duration)` with `duration = len(wavs[0]) / sr`
(`Waveform.py` lines 205-206). -/
def frameCount (rate L : ℕ) (sr : ℚ) : ℤ := pyInt ((rate : ℚ) * ((L : ℚ) / sr))

/-- Modelled from the spec (C7): the spec computes the total frame count
with ordinary rounding, `round(framerate * duration)`. -/
def specFrameCount (rate L : ℕ) (sr : ℚ) : ℤ := round ((rate : ℚ) * ((L : ℚ) / sr))

/-- The `idx:06d` zero-padded decimal field of the output file names. -/
def zeroPad6 (n : ℕ) : String :=
  let s := toString n
  String.mk (List.replicate (6 - s.length) '0') ++ s

/-- The file name of output frame `idx` for clip `audioID`
(`Waveform.py` line 226): `f"{audioID}-{idx:06d}.png"`. -/
def frameName (audioID : String) (idx : ℕ) : String :=
  audioID ++ "-" ++ zeroPad6 idx ++ ".png"

/-- The `for wav in wavs` envelope-extraction loop of `visualize`
(`Waveform.py` lines 199-203): one envelope per channel, the first raised
exception propagating. -/
noncomputable def mapEnvE (ws : List (List ℝ)) (window stride : ℤ) :
    Except VisError (List (List ℝ)) :=
  match ws with
  | [] => .ok []
  | w :: rest =>
    match envelopeE w window stride, mapEnvE rest window stride with
    | .ok e, .ok es => .ok (e :: es)
    | .error err, _ => .error err
    | .ok _, .error err => .error err

/-- The whole pipeline of `visualize` (`Waveform.py` lines 186-226) after
decoding, at the granularity the claims need: channel selection, per-channel
normalization, window/stride derivation, envelope extraction and padding,
frame counting, and the ordered list of frame file names written by the
frame loop.  The image contents of each frame are modelled separately by
`frameAt` and `drawEnvSegments`. -/
noncomputable def visualize (audioID : String) (stereo : Bool)
    (wav : List (List ℝ)) (sr : ℚ) (rate bars : ℕ) (time oversample : ℚ) :
    Except VisError (List String) :=
  match selectChannels stereo wav with
  | .error e => .error e
  | .ok chans =>
    let wavs := chans.map normalizeChannel
    let window := derivedWindow sr time (bars : ℚ)
    let stride := derivedStride window oversample
    match mapEnvE wavs window stride with
    | .error e => .error e
    | .ok envs =>
      let _envs := envs.map (fun e => envPadded e bars)
      let frames := (frameCount rate (wavs.headD []).length sr).toNat
      .ok ((List.range frames).map (fun idx => frameName audioID idx))

/-- The frame files present on disk after a run of `visualize`: every error
raise site in the source precedes the frame loop, so a failed run writes no
frame file. -/
noncomputable def writtenFrames (audioID : String) (stereo : Bool)
    (wav : List (List ℝ)) (sr : ℚ) (rate bars : ℕ) (time oversample : ℚ) :
    List String :=
  match visualize audioID stereo wav sr rate bars time oversample with
  | .ok l => l
  | .error _ => []

/-! ## Helper lemmas -/

theorem pyInt_of_nonneg {q : ℚ} (h : 0 ≤ q) : pyInt q = ⌊q⌋ := by
  unfold pyInt
  rw [if_pos h]

theorem npPad_length (l : List ℝ) (k : ℕ) :
    (npPad l k).length = l.length + 2 * k := by
  simp [npPad]
  omega

theorem npPad2_length (l : List ℝ) (a b : ℕ) :
    (npPad2 l a b).length = a + l.length + b := by
  simp [npPad2]
  omega

theorem envelope_length (wav : List ℝ) (window stride : ℕ) :
    (envelope wav window stride).length
      = numOffsets (wav.length + 2 * (window / 2) - window) stride := by
  simp only [envelope, List.length_map, pyRangeStep, List.length_range,
    npPad_length]

theorem numOffsets_eq_ceil (n s : ℕ) (hs : 1 ≤ s) :
    numOffsets n s = (n + s - 1) / s := by
  unfold numOffsets
  rcases Nat.eq_zero_or_pos n with h | h
  · subst h
    rw [if_pos rfl]
    exact (Nat.div_eq_of_lt (by omega)).symm
  · have h1 : n + s - 1 = (n - 1) + s := by omega
    rw [if_neg (by omega), h1, Nat.add_div_right _ (by omega)]

theorem numOffsets_ge (n s : ℕ) (hs : 1 ≤ s) : n / s ≤ numOffsets n s := by
  unfold numOffsets
  rcases Nat.eq_zero_or_pos n with h | h
  · subst h
    simp
  · rw [if_neg (by omega)]
    calc n / s ≤ (n - 1 + s) / s := Nat.div_le_div_right (by omega)
      _ = (n - 1) / s + 1 := Nat.add_div_right _ (by omega)

theorem pySlice_length (l : List ℝ) (a b : ℕ) (_hab : a ≤ b)
    (hb : b ≤ l.length) : (pySlice l a b).length = b - a := by
  simp [pySlice]
  omega

theorem sigmoid_lt_one (x : ℝ) : sigmoid x < 1 := by
  unfold sigmoid
  rw [div_lt_one (by positivity)]
  have h := Real.exp_pos (-x)
  linarith

theorem sigmoid_mono {x y : ℝ} (h : x ≤ y) : sigmoid x ≤ sigmoid y := by
  unfold sigmoid
  apply one_div_le_one_div_of_le (by positivity)
  have h2 := Real.exp_le_exp.mpr (neg_le_neg h)
  linarith

theorem sigmoid_zero : sigmoid 0 = 1 / 2 := by
  unfold sigmoid
  rw [neg_zero, Real.exp_zero]
  norm_num

theorem compress_lt_bound (x : ℝ) : compress x < 0.95 := by
  unfold compress
  nlinarith [sigmoid_lt_one (2.5 * x)]

theorem compress_mono {x y : ℝ} (h : x ≤ y) : compress x ≤ compress y := by
  have h2 : sigmoid (2.5 * x) ≤ sigmoid (2.5 * y) :=
    sigmoid_mono (by nlinarith)
  unfold compress
  nlinarith

theorem compress_nonneg {x : ℝ} (hx : 0 ≤ x) : 0 ≤ compress x := by
  have h1 : sigmoid 0 ≤ sigmoid (2.5 * x) := sigmoid_mono (by nlinarith)
  rw [sigmoid_zero] at h1
  unfold compress
  nlinarith

theorem rectMean_nonneg (frame : List ℝ) : 0 ≤ rectMean frame := by
  unfold rectMean npMean
  apply div_nonneg _ (by positivity)
  apply List.sum_nonneg
  intro x hx
  obtain ⟨y, _, rfl⟩ := List.mem_map.mp hx
  exact le_max_right y 0

theorem envelope_mem {wav : List ℝ} {window stride : ℕ} {v : ℝ}
    (hv : v ∈ envelope wav window stride) :
    ∃ off, v = compress (rectMean (pySlice (npPad wav (window / 2)) off (off + window))) := by
  simp only [envelope, List.mem_map] at hv
  obtain ⟨u, ⟨off, _, rfl⟩, rfl⟩ := hv
  exact ⟨off, rfl⟩

/-! ## Claim theorems -/

/-- C2 counterexample: the claim's output-length formula
`floor((padded_length - window) / stride)` fails on the code.  For a
6-sample waveform with `window = 3`, `stride = 2` the padded length is 8,
the claim predicts `⌊5/2⌋ = 2` values, but the code's
`range(0, len(padded) - window, stride)` yields the 3 offsets 0, 2, 4. -/
theorem c2_floor_length_cex :
    (envelope (List.replicate 6 (0 : ℝ)) 3 2).length
      ≠ ((List.replicate 6 (0 : ℝ)).length + 2 * (3 / 2) - 3) / 2 := by
  rw [envelope_length]
  simp [numOffsets]

/-- C2 (amended): for every waveform and every valid `(window, stride)` pair
with `window ≥ stride ≥ 1`, `envelope` pads the input by `window // 2` on
each side and returns a sequence of length `⌈(padded_length - window) / stride⌉`
(the ceiling, not the floor: the loop `range(0, len(padded) - window, stride)`
also emits the last offset strictly below the stop bound, while the window
that would start exactly at `len(padded) - window` is dropped). -/
theorem c2_envelope_length_ceil (wav : List ℝ) (window stride : ℕ)
    (hs : 1 ≤ stride) (_hws : stride ≤ window) :
    (envelope wav window stride).length
      = (wav.length + 2 * (window / 2) - window + stride - 1) / stride := by
  rw [envelope_length, numOffsets_eq_ceil _ _ hs]

/-- Witness for `c2_envelope_length_ceil` at a 6-sample waveform with
`window = 3`, `stride = 2`. -/
theorem c2_envelope_length_ceil_witness :
    (envelope (List.replicate 6 (0 : ℝ)) 3 2).length
      = ((List.replicate 6 (0 : ℝ)).length + 2 * (3 / 2) - 3 + 2 - 1) / 2 :=
  c2_envelope_length_ceil (List.replicate 6 0) 3 2 (by decide) (by decide)

/-- C9: the loudness compressor `f(x) = 1.9 * (sigmoid(2.5 * x) - 0.5)` is
non-decreasing on `x ≥ 0` and satisfies `f(x) < 0.95` for every `x`;
consequently every envelope value, being `f` of a rectified pooled mean,
lies in `[0, 0.95)`. -/
theorem c9_compressor_monotone_bounded :
    (∀ x y : ℝ, 0 ≤ x → x ≤ y → compress x ≤ compress y) ∧
    (∀ x : ℝ, compress x < 0.95) ∧
    (∀ (wav : List ℝ) (window stride : ℕ), ∀ v ∈ envelope wav window stride,
      0 ≤ v ∧ v < 0.95) := by
  refine ⟨fun x y _ h => compress_mono h, compress_lt_bound, ?_⟩
  intro wav window stride v hv
  obtain ⟨off, rfl⟩ := envelope_mem hv
  exact ⟨compress_nonneg (rectMean_nonneg _), compress_lt_bound _⟩

/-- Witness for `c9_compressor_monotone_bounded`: monotonicity at `0 ≤ 1`,
the bound at `2`, and the range of the concrete envelope value of the
3-sample waveform `[1, 1, 1]` with `window = stride = 1`. -/
theorem c9_compressor_witness :
    compress 0 ≤ compress 1 ∧ compress 2 < 0.95 ∧
      (0 ≤ compress (rectMean (pySlice (npPad [1, 1, 1] 0) 0 1)) ∧
        compress (rectMean (pySlice (npPad [1, 1, 1] 0) 0 1)) < 0.95) :=
  ⟨c9_compressor_monotone_bounded.1 0 1 le_rfl zero_le_one,
   c9_compressor_monotone_bounded.2.1 2,
   c9_compressor_monotone_bounded.2.2 [1, 1, 1] 1 1 _
     (by
       simp [envelope, pyRangeStep, numOffsets, npPad_length]
       exact ⟨0, by omega, rfl⟩)⟩

/-- C4 (code bug): the channel IS divided by its own standard deviation
(`normalizeChannelN` is that division with numpy's division-by-zero
behaviour made explicit), but on a silent all-zero channel the standard
deviation is 0 and the division yields NaN (`none`) in every position —
numpy raises nothing, so no `DegenerateSignalError`-like failure occurs and
the pipeline continues with NaN-filled data. -/
theorem c4_silent_input_nan :
    npStd (List.replicate 5 (0 : ℝ)) = 0 ∧
      normalizeChannelN (List.replicate 5 (0 : ℝ)) = List.replicate 5 none := by
  have hstd : npStd (List.replicate 5 (0 : ℝ)) = 0 := by
    unfold npStd npMean
    simp
  refine ⟨hstd, ?_⟩
  unfold normalizeChannelN nanDiv
  simp only [hstd, eq_self_iff_true, if_true, List.map_replicate]

/-- C5: with `stereo = True` and a decoded channel count other than two, the
pipeline fails (the stereo assertion, the failure the spec calls
`ChannelMismatchError`) and no frame file is written: the failure site
precedes the frame loop. -/
theorem c5_stereo_mismatch (audioID : String) (wav : List (List ℝ)) (sr : ℚ)
    (rate bars : ℕ) (time oversample : ℚ) (h : wav.length ≠ 2) :
    visualize audioID true wav sr rate bars time oversample
        = .error .channelMismatch ∧
      writtenFrames audioID true wav sr rate bars time oversample = [] := by
  have hsel : selectChannels true wav = .error .channelMismatch := by
    unfold selectChannels
    rw [if_pos rfl, if_neg h]
  have hvis : visualize audioID true wav sr rate bars time oversample
      = .error .channelMismatch := by
    unfold visualize
    rw [hsel]
  refine ⟨hvis, ?_⟩
  unfold writtenFrames
  rw [hvis]

/-- Witness for `c5_stereo_mismatch` on a one-channel (mono) input. -/
theorem c5_stereo_mismatch_witness :
    visualize "a" true [[(0 : ℝ)]] 1 1 1 1 1 = .error .channelMismatch ∧
      writtenFrames "a" true [[(0 : ℝ)]] 1 1 1 1 1 = [] :=
  c5_stereo_mismatch "a" [[(0 : ℝ)]] 1 1 1 1 1 (by simp)

/-- C10: with `stereo = False` every decoded input is accepted whatever its
channel count, and is downmixed by `wav.mean(0)` — the elementwise average
over all channels — into a single mono channel: entry `j` of the one
resulting channel is the sum of the channels' `j`-th samples divided by the
channel count. -/
theorem c10_mono_downmix (wav : List (List ℝ)) (j : ℕ)
    (hj : j < (wav.headD []).length) :
    selectChannels false wav = .ok [npMean0 wav] ∧
      (npMean0 wav).length = (wav.headD []).length ∧
      (npMean0 wav).getD j 0
        = (wav.map (fun ch => ch.getD j 0)).sum / wav.length := by
  refine ⟨rfl, by simp [npMean0], ?_⟩
  unfold npMean0
  rw [List.getD_eq_getElem?_getD, List.getElem?_map, List.getElem?_range hj]
  simp

/-- Witness for `c10_mono_downmix` on a three-channel input (which a
rejecting or channel-selecting implementation would not mix). -/
theorem c10_mono_downmix_witness :
    selectChannels false [[(1 : ℝ), 3], [3, 5], [5, 7]]
        = .ok [npMean0 [[(1 : ℝ), 3], [3, 5], [5, 7]]] ∧
      (npMean0 [[(1 : ℝ), 3], [3, 5], [5, 7]]).length
        = (([[(1 : ℝ), 3], [3, 5], [5, 7]] : List (List ℝ)).headD []).length ∧
      (npMean0 [[(1 : ℝ), 3], [3, 5], [5, 7]]).getD 0 0
        = (([[(1 : ℝ), 3], [3, 5], [5, 7]] : List (List ℝ)).map
            (fun ch => ch.getD 0 0)).sum / ([[(1 : ℝ), 3], [3, 5], [5, 7]] : List (List ℝ)).length :=
  c10_mono_downmix [[(1 : ℝ), 3], [3, 5], [5, 7]] 0 (by simp)

/-- C6 counterexample: the claim derives `window = round(sample_rate *
time_per_frame / bars)`, but the code truncates with `int(...)`.  At
`sample_rate = 44100`, `time = 0.4`, `bars = 50` the quotient is `352.8`:
the code's window is 352, the claim's is 353. -/
theorem c6_round_cex :
    derivedWindow 44100 (2 / 5) 50 ≠ specDerivedWindow 44100 (2 / 5) 50 := by
  unfold derivedWindow specDerivedWindow pyInt
  rw [if_pos (by norm_num), round_eq]
  norm_num

/-- C6 (amended): `window = int(sr * time / bars)` and
`stride = int(window / oversample)`, both truncated toward zero (not
rounded); with a positive oversample and a nonnegative quotient, whenever
either derived value is below 1 the derived stride is 0 and extraction
fails — the zero-step `range` raises (the failure the spec names
`InvalidParameterError`). -/
theorem c6_derived_fail (sr time bars oversample : ℚ) (wav : List ℝ)
    (hq : 0 ≤ sr * time / bars) (hov : 0 < oversample)
    (h : derivedWindow sr time bars < 1 ∨
      derivedStride (derivedWindow sr time bars) oversample < 1) :
    envelopeE wav (derivedWindow sr time bars)
        (derivedStride (derivedWindow sr time bars) oversample)
      = .error .zeroStepRange := by
  have hw : 0 ≤ derivedWindow sr time bars := by
    rw [derivedWindow, pyInt_of_nonneg hq]
    exact Int.le_floor.mpr (by exact_mod_cast hq)
  have hsnn : ∀ w : ℤ, 0 ≤ w → 0 ≤ derivedStride w oversample := by
    intro w hw0
    have hq2 : (0 : ℚ) ≤ (w : ℚ) / oversample :=
      div_nonneg (by exact_mod_cast hw0) hov.le
    rw [derivedStride, pyInt_of_nonneg hq2]
    exact Int.le_floor.mpr (by exact_mod_cast hq2)
  have hs0 : derivedStride (derivedWindow sr time bars) oversample = 0 := by
    rcases h with h | h
    · have hw0 : derivedWindow sr time bars = 0 := by omega
      rw [hw0]
      simp [derivedStride, pyInt]
    · have := hsnn _ hw
      omega
  rw [hs0]
  unfold envelopeE
  rw [if_neg (by omega), if_pos rfl]

/-- Witness for `c6_derived_fail`: `sr = 1`, `time = 1`, `bars = 2`,
`oversample = 3` give `window = int(0.5) = 0 < 1`. -/
theorem c6_derived_fail_witness :
    envelopeE [] (derivedWindow 1 1 2)
        (derivedStride (derivedWindow 1 1 2) 3)
      = .error .zeroStepRange :=
  c6_derived_fail 1 1 2 3 [] (by norm_num) (by norm_num)
    (Or.inl (by norm_num [derivedWindow, pyInt]))

/-- C7 counterexample: the claim computes the total frame count as
`round(framerate * duration)`, but the code truncates with `int(...)`.
With `rate = 1` and an 8-sample clip at `sr = 5` the product is `1.6`:
the code renders 1 frame, the claim demands 2. -/
theorem c7_round_cex : frameCount 1 8 5 ≠ specFrameCount 1 8 5 := by
  unfold frameCount specFrameCount pyInt
  rw [if_pos (by norm_num), round_eq]
  norm_num

/-- C7 (amended): for every successfully extracted non-stereo clip the
driver computes the total frame count as `int(framerate * duration)`,
TRUNCATED toward zero (not rounded), with `duration` the decoded sample
count over the sample rate, and produces exactly one PNG name per frame
index: the `i`-th written file (in increasing index order) is named by the
clip ID and the zero-padded 6-digit index `i`. -/
theorem c7_frame_files (audioID : String) (wav : List (List ℝ)) (sr : ℚ)
    (rate bars : ℕ) (time oversample : ℚ) (i : ℕ)
    (hw : 0 ≤ derivedWindow sr time (bars : ℚ))
    (hs : 0 < derivedStride (derivedWindow sr time (bars : ℚ)) oversample)
    (hi : i < (frameCount rate (npMean0 wav).length sr).toNat) :
    visualize audioID false wav sr rate bars time oversample
        = .ok ((List.range (frameCount rate (npMean0 wav).length sr).toNat).map
            (fun idx => frameName audioID idx)) ∧
      ((List.range (frameCount rate (npMean0 wav).length sr).toNat).map
          (fun idx => frameName audioID idx)).length
        = (frameCount rate (npMean0 wav).length sr).toNat ∧
      ((List.range (frameCount rate (npMean0 wav).length sr).toNat).map
          (fun idx => frameName audioID idx)).getD i ""
        = audioID ++ "-" ++ zeroPad6 i ++ ".png" := by
  have henv : envelopeE (normalizeChannel (npMean0 wav))
      (derivedWindow sr time (bars : ℚ))
      (derivedStride (derivedWindow sr time (bars : ℚ)) oversample)
      = .ok (envelope (normalizeChannel (npMean0 wav))
          (derivedWindow sr time (bars : ℚ)).toNat
          (derivedStride (derivedWindow sr time (bars : ℚ)) oversample).toNat) := by
    unfold envelopeE
    rw [if_neg (by omega), if_neg (by omega), if_neg (by omega)]
  have hmap : mapEnvE [normalizeChannel (npMean0 wav)]
      (derivedWindow sr time (bars : ℚ))
      (derivedStride (derivedWindow sr time (bars : ℚ)) oversample)
      = .ok [envelope (normalizeChannel (npMean0 wav))
          (derivedWindow sr time (bars : ℚ)).toNat
          (derivedStride (derivedWindow sr time (bars : ℚ)) oversample).toNat] := by
    simp only [mapEnvE, henv]
  refine ⟨?_, by simp, ?_⟩
  · unfold visualize
    rw [show selectChannels false wav = .ok [npMean0 wav] from rfl]
    simp only [List.map_cons, List.map_nil]
    rw [hmap]
    simp only [List.headD_cons, normalizeChannel, List.length_map]
  · rw [List.getD_eq_getElem?_getD, List.getElem?_map, List.getElem?_range hi]
    simp [frameName]

/-- Witness for `c7_frame_files`: a one-channel one-sample clip with
`sr = rate = bars = time = oversample = 1` gives one frame, index 0. -/
theorem c7_frame_files_witness :
    visualize "7" false [[(0 : ℝ)]] 1 1 1 1 1
        = .ok ((List.range (frameCount 1 (npMean0 [[(0 : ℝ)]]).length 1).toNat).map
            (fun idx => frameName "7" idx)) ∧
      ((List.range (frameCount 1 (npMean0 [[(0 : ℝ)]]).length 1).toNat).map
          (fun idx => frameName "7" idx)).length
        = (frameCount 1 (npMean0 [[(0 : ℝ)]]).length 1).toNat ∧
      ((List.range (frameCount 1 (npMean0 [[(0 : ℝ)]]).length 1).toNat).map
          (fun idx => frameName "7" idx)).getD 0 ""
        = "7" ++ "-" ++ zeroPad6 0 ++ ".png" :=
  c7_frame_files "7" [[(0 : ℝ)]] 1 1 1 1 1 0
    (by norm_num [derivedWindow, pyInt])
    (by norm_num [derivedStride, derivedWindow, pyInt])
    (by norm_num [frameCount, npMean0, pyInt])

/-- C8 counterexample: the claim gives BOTH segments of a bar the
half-height `snapshot[channel][t] / (2K)`, but the lower segment drawn at
`Waveform.py` line 137 only extends `0.9 * half` below the midline: for the
single-channel snapshot `[1]` it spans 0.45, not `1 / (2 * 1) = 0.5`. -/
theorem c8_lower_half_cex :
    ((drawEnvSegments [[1]] [(0, 0, 0)]).getD 1 ⟨0, 0, 0, (0, 0, 0), 0⟩).y1
        - ((drawEnvSegments [[1]] [(0, 0, 0)]).getD 1 ⟨0, 0, 0, (0, 0, 0), 0⟩).y0
      ≠ (1 : ℝ) / (2 * 1) := by
  simp [drawEnvSegments, barSegs, List.range_succ]
  norm_num

/-- C8 (amended): for every channel `i` of the `K` channels and bar
position `step` of the `T` bars, the renderer draws two connected segments
at abscissa `barX T step`, centered on the channel's vertical midline
`(1 + 2i) / (2K)`: an upper segment of half-height
`snapshot[i][step] / (2K)` at full opacity, and a lower segment at 80%
opacity whose half-height is only `0.9 * (snapshot[i][step] / (2K))` (90%
of the upper one, not equal to it). -/
theorem c8_bar_segments (envs : List (List ℝ)) (fg : List (ℝ × ℝ × ℝ))
    (step i : ℕ) (hstep : step < (envs.headD []).length)
    (hi : i < envs.length) :
    ({ x := barX (envs.headD []).length step,
       y0 := (1 + 2 * i) / (2 * envs.length)
          - (envs.getD i []).getD step 0 / (2 * envs.length),
       y1 := (1 + 2 * i) / (2 * envs.length),
       color := fg.getD i (0, 0, 0), alpha := 1 } : Segment)
        ∈ drawEnvSegments envs fg ∧
    ({ x := barX (envs.headD []).length step,
       y0 := (1 + 2 * i) / (2 * envs.length),
       y1 := (1 + 2 * i) / (2 * envs.length)
          + 0.9 * ((envs.getD i []).getD step 0 / (2 * envs.length)),
       color := fg.getD i (0, 0, 0), alpha := 0.8 } : Segment)
        ∈ drawEnvSegments envs fg := by
  have hmem : ∀ s ∈ barSegs envs.length ((envs.getD i []).getD step 0) i
      (barX (envs.headD []).length step) (fg.getD i (0, 0, 0)),
      s ∈ drawEnvSegments envs fg := by
    intro s hsm
    simp only [drawEnvSegments, List.mem_flatMap, List.mem_range]
    exact ⟨step, hstep, i, hi, hsm⟩
  have hhalf : (0.5 : ℝ) * (envs.getD i []).getD step 0 / (envs.length : ℝ)
      = (envs.getD i []).getD step 0 / (2 * (envs.length : ℝ)) := by
    ring
  constructor
  · apply hmem
    simp only [barSegs, hhalf, List.mem_cons]
    exact Or.inl trivial
  · apply hmem
    simp only [barSegs, hhalf, List.mem_cons]
    exact Or.inr (Or.inl trivial)

/-- Witness for `c8_bar_segments` at the single-channel one-bar snapshot
`[[1]]`. -/
theorem c8_bar_segments_witness :
    ({ x := barX (([[(1 : ℝ)]] : List (List ℝ)).headD []).length 0,
       y0 := (1 + 2 * (0 : ℕ)) / (2 * ([[(1 : ℝ)]] : List (List ℝ)).length)
          - (([[(1 : ℝ)]] : List (List ℝ)).getD 0 []).getD 0 0
              / (2 * ([[(1 : ℝ)]] : List (List ℝ)).length),
       y1 := (1 + 2 * (0 : ℕ)) / (2 * ([[(1 : ℝ)]] : List (List ℝ)).length),
       color := ([((0 : ℝ), (0 : ℝ), (0 : ℝ))]).getD 0 (0, 0, 0), alpha := 1 } : Segment)
        ∈ drawEnvSegments [[(1 : ℝ)]] [((0 : ℝ), (0 : ℝ), (0 : ℝ))] ∧
    ({ x := barX (([[(1 : ℝ)]] : List (List ℝ)).headD []).length 0,
       y0 := (1 + 2 * (0 : ℕ)) / (2 * ([[(1 : ℝ)]] : List (List ℝ)).length),
       y1 := (1 + 2 * (0 : ℕ)) / (2 * ([[(1 : ℝ)]] : List (List ℝ)).length)
          + 0.9 * ((([[(1 : ℝ)]] : List (List ℝ)).getD 0 []).getD 0 0
              / (2 * ([[(1 : ℝ)]] : List (List ℝ)).length)),
       color := ([((0 : ℝ), (0 : ℝ), (0 : ℝ))]).getD 0 (0, 0, 0), alpha := 0.8 } : Segment)
        ∈ drawEnvSegments [[(1 : ℝ)]] [((0 : ℝ), (0 : ℝ), (0 : ℝ))] :=
  c8_bar_segments [[(1 : ℝ)]] [((0 : ℝ), (0 : ℝ), (0 : ℝ))] 0 0
    (by simp) (by simp)

/-- C3: for every input waveform and every frame index `idx` in
`[0, frames)`, the two envelope slices
`env[off*bars : (off+1)*bars]` and `env[(off+1)*bars : (off+2)*bars]` are
fully in-bounds of the padded envelope — each of length exactly `bars` —
thanks to the `bars // 2` head padding and `2 * bars` tail padding; in
particular the second window is never empty, so its `max` is defined. -/
theorem c3_windows_in_bounds (wav : List ℝ) (window stride bars rate : ℕ)
    (sr : ℚ) (idx : ℕ)
    (hL : 1 ≤ wav.length) (hstride : 1 ≤ stride) (hbars : 1 ≤ bars)
    (hrate : 1 ≤ rate) (hsr : 0 < sr)
    (hidx : (idx : ℤ) < frameCount rate wav.length sr) :
    (((pyInt (posOf idx rate sr stride bars)).toNat + 2) * bars
        ≤ (envPadded (envelope wav window stride) bars).length) ∧
      (pySlice (envPadded (envelope wav window stride) bars)
          ((pyInt (posOf idx rate sr stride bars)).toNat * bars)
          (((pyInt (posOf idx rate sr stride bars)).toNat + 1) * bars)).length
        = bars ∧
      (pySlice (envPadded (envelope wav window stride) bars)
          (((pyInt (posOf idx rate sr stride bars)).toNat + 1) * bars)
          (((pyInt (posOf idx rate sr stride bars)).toNat + 2) * bars)).length
        = bars ∧
      pySlice (envPadded (envelope wav window stride) bars)
          (((pyInt (posOf idx rate sr stride bars)).toNat + 1) * bars)
          (((pyInt (posOf idx rate sr stride bars)).toNat + 2) * bars) ≠ [] := by
  have hpos0 : 0 ≤ posOf idx rate sr stride bars := by
    unfold posOf
    positivity
  have hfl : pyInt (posOf idx rate sr stride bars)
      = ⌊posOf idx rate sr stride bars⌋ := pyInt_of_nonneg hpos0
  have hflnn : 0 ≤ ⌊posOf idx rate sr stride bars⌋ := Int.floor_nonneg.mpr hpos0
  set o : ℕ := (pyInt (posOf idx rate sr stride bars)).toNat with ho
  have hoz : (o : ℤ) = ⌊posOf idx rate sr stride bars⌋ := by
    rw [ho, hfl, Int.toNat_of_nonneg hflnn]
  have hoq : (o : ℚ) ≤ posOf idx rate sr stride bars := by
    have h1 := Int.floor_le (posOf idx rate sr stride bars)
    rw [← hoz] at h1
    exact_mod_cast h1
  have hrq : (0 : ℚ) < (rate : ℚ) := by exact_mod_cast Nat.lt_of_lt_of_le Nat.zero_lt_one hrate
  have hsq : (0 : ℚ) < (stride : ℚ) := by exact_mod_cast Nat.lt_of_lt_of_le Nat.zero_lt_one hstride
  have hbq : (0 : ℚ) < (bars : ℚ) := by exact_mod_cast Nat.lt_of_lt_of_le Nat.zero_lt_one hbars
  have hfr : ((idx : ℚ) + 1) ≤ (rate : ℚ) * ((wav.length : ℚ) / sr) := by
    have h1 : (0 : ℚ) ≤ (rate : ℚ) * ((wav.length : ℚ) / sr) := by positivity
    rw [frameCount, pyInt_of_nonneg h1] at hidx
    have h2 : (idx : ℤ) + 1 ≤ ⌊(rate : ℚ) * ((wav.length : ℚ) / sr)⌋ := hidx
    have h3 := Int.le_floor.mp h2
    exact_mod_cast h3
  have hkey : o * stride * bars < wav.length := by
    have hposmul : (rate : ℚ) * (posOf idx rate sr stride bars * ((stride : ℚ) * bars))
        = (idx : ℚ) * sr := by
      unfold posOf
      field_simp
      ring
    have h1 : (rate : ℚ) * ((o : ℚ) * ((stride : ℚ) * bars)) ≤ (idx : ℚ) * sr := by
      rw [← hposmul]
      have h1a : (o : ℚ) * ((stride : ℚ) * bars)
          ≤ posOf idx rate sr stride bars * ((stride : ℚ) * bars) :=
        mul_le_mul_of_nonneg_right hoq (by positivity)
      exact mul_le_mul_of_nonneg_left h1a hrq.le
    have h2 : (idx : ℚ) * sr < ((idx : ℚ) + 1) * sr := by nlinarith
    have h3 : ((idx : ℚ) + 1) * sr ≤ (rate : ℚ) * (wav.length : ℚ) := by
      have h3a := mul_le_mul_of_nonneg_right hfr hsr.le
      calc ((idx : ℚ) + 1) * sr ≤ (rate : ℚ) * ((wav.length : ℚ) / sr) * sr := h3a
        _ = (rate : ℚ) * (wav.length : ℚ) := by
            field_simp
    have h4 : (rate : ℚ) * ((o : ℚ) * ((stride : ℚ) * bars))
        < (rate : ℚ) * (wav.length : ℚ) :=
      lt_of_le_of_lt h1 (lt_of_lt_of_le h2 h3)
    have h5 : (o : ℚ) * ((stride : ℚ) * bars) < (wav.length : ℚ) :=
      lt_of_mul_lt_mul_left h4 hrq.le
    have h6 : ((o * stride * bars : ℕ) : ℚ) < ((wav.length : ℕ) : ℚ) := by
      push_cast
      calc ((o : ℚ)) * stride * bars = (o : ℚ) * ((stride : ℚ) * bars) := by ring
        _ < (wav.length : ℚ) := h5
    exact_mod_cast h6
  have hobars : o * bars ≤ (wav.length - 1) / stride := by
    rw [Nat.le_div_iff_mul_le (by omega : 0 < stride)]
    have heq : o * bars * stride = o * stride * bars := by ring
    rw [heq]
    exact Nat.le_sub_one_of_lt hkey
  have henvLen : (wav.length - 1) / stride ≤ (envelope wav window stride).length := by
    rw [envelope_length]
    have hN : wav.length - 1 ≤ wav.length + 2 * (window / 2) - window := by omega
    calc (wav.length - 1) / stride
        ≤ (wav.length + 2 * (window / 2) - window) / stride := Nat.div_le_div_right hN
      _ ≤ numOffsets (wav.length + 2 * (window / 2) - window) stride :=
          numOffsets_ge _ _ hstride
  have hob : o * bars ≤ (envelope wav window stride).length := hobars.trans henvLen
  have hlen : (envPadded (envelope wav window stride) bars).length
      = bars / 2 + (envelope wav window stride).length + 2 * bars := by
    unfold envPadded
    rw [npPad2_length]
  have e1 : (o + 1) * bars = o * bars + bars := Nat.succ_mul o bars
  have e2 : (o + 2) * bars = o * bars + bars + bars := by ring
  have hmain : (o + 2) * bars ≤ (envPadded (envelope wav window stride) bars).length := by
    rw [hlen, e2]
    calc o * bars + bars + bars
        ≤ (envelope wav window stride).length + bars + bars :=
          Nat.add_le_add_right (Nat.add_le_add_right hob _) _
      _ ≤ bars / 2 + (envelope wav window stride).length + 2 * bars := by omega
  have hs1 : (pySlice (envPadded (envelope wav window stride) bars)
      (o * bars) ((o + 1) * bars)).length = bars := by
    rw [pySlice_length _ _ _ (by rw [e1]; exact Nat.le_add_right _ _)
      (le_trans (by rw [e1, e2]; omega) hmain), e1, Nat.add_sub_cancel_left]
  have hs2 : (pySlice (envPadded (envelope wav window stride) bars)
      ((o + 1) * bars) ((o + 2) * bars)).length = bars := by
    rw [pySlice_length _ _ _ (by rw [e1, e2]; omega) (le_trans le_rfl hmain), e1, e2,
      Nat.add_sub_cancel_left]
  refine ⟨hmain, hs1, hs2, ?_⟩
  intro hnil
  rw [hnil] at hs2
  simp at hs2
  omega

/-- Witness for `c3_windows_in_bounds`: a 5-sample waveform, `window = 2`,
`stride = bars = rate = 1`, `sr = 1`, frame index 0 (of the 5 frames). -/
theorem c3_windows_in_bounds_witness :
    (((pyInt (posOf 0 1 1 1 1)).toNat + 2) * 1
        ≤ (envPadded (envelope (List.replicate 5 (0 : ℝ)) 2 1) 1).length) ∧
      (pySlice (envPadded (envelope (List.replicate 5 (0 : ℝ)) 2 1) 1)
          ((pyInt (posOf 0 1 1 1 1)).toNat * 1)
          (((pyInt (posOf 0 1 1 1 1)).toNat + 1) * 1)).length = 1 ∧
      (pySlice (envPadded (envelope (List.replicate 5 (0 : ℝ)) 2 1) 1)
          (((pyInt (posOf 0 1 1 1 1)).toNat + 1) * 1)
          (((pyInt (posOf 0 1 1 1 1)).toNat + 2) * 1)).length = 1 ∧
      pySlice (envPadded (envelope (List.replicate 5 (0 : ℝ)) 2 1) 1)
          (((pyInt (posOf 0 1 1 1 1)).toNat + 1) * 1)
          (((pyInt (posOf 0 1 1 1 1)).toNat + 2) * 1) ≠ [] :=
  c3_windows_in_bounds (List.replicate 5 (0 : ℝ)) 2 1 1 1 1 0
    (by simp) le_rfl le_rfl le_rfl (by norm_num)
    (by norm_num [frameCount, pyInt])

/-- Clamping to `[0.5, 2]` commutes: `max lo (min v hi) = min (max v lo) hi`
for this `lo ≤ hi`. -/
theorem clamp_half_two_comm (v : ℝ) : max 0.5 (min v 2) = min (max v 0.5) 2 := by
  rcases le_total v 0.5 with h | h
  · rw [min_eq_left (by linarith), max_eq_left h, max_eq_right h,
      min_eq_left (by norm_num)]
  · rcases le_total v 2 with h2 | h2
    · rw [min_eq_left h2, max_eq_right h, max_eq_left h, min_eq_left h2]
    · rw [min_eq_right h2, max_eq_right (by norm_num), max_eq_left (by linarith),
        min_eq_right h2]

theorem codeSpeedup_eq_specSpeedup (m : ℝ) : codeSpeedup m = specSpeedup m := by
  unfold codeSpeedup specSpeedup npClip interpole
  have hA : (0.5 : ℝ)
        + (2 - 0.5) * (Real.logb 10 (1e-4 + m) * 10 - (-6)) / (0 - (-6))
      = 0.5 + (2 - 0.5) * ((10 * Real.logb 10 (1e-4 + m) - (-6)) / (0 - (-6))) := by
    ring
  rw [hA]
  exact clamp_half_two_comm _

/-- C1: for every output frame index, the per-frame blend of `visualize`'s
frame loop is exactly the computation the spec describes: `maxvol =
10 * log10(1e-4 + max(window2))`, `speedup` the `[-6, 0] → [0.5, 2.0]`
linear map of `maxvol` clamped to `[0.5, 2.0]`, blend weight
`w = sigmoid(base_speed * speedup * (loc - 0.5))` with `loc` the fractional
part of `pos = (idx / framerate) * sample_rate / stride / bars`, and the
produced window `(1 - w) * window1 + w * window2` times the bar-count-length
Hann taper. -/
theorem c1_frame_blend_matches_spec (speed : ℝ) (rate : ℕ) (sr : ℚ)
    (stride bars : ℕ) (env : List ℝ) (idx : ℕ) (hsr : 0 ≤ sr) :
    frameAt speed rate sr stride bars env idx
      = specFrameAt speed rate sr stride bars env idx := by
  have hpos0 : 0 ≤ posOf idx rate sr stride bars := by
    unfold posOf
    positivity
  have hfl : pyInt (posOf idx rate sr stride bars)
      = ⌊posOf idx rate sr stride bars⌋ := pyInt_of_nonneg hpos0
  simp only [frameAt, specFrameAt, posOf] at hfl ⊢
  rw [hfl, Int.self_sub_floor]
  simp only [codeSpeedup_eq_specSpeedup]

/-- Witness for `c1_frame_blend_matches_spec` at frame 0 of a 16 kHz clip
with the default base speed and framerate, `stride = 2`, `bars = 1`. -/
theorem c1_frame_blend_witness :
    frameAt 4 20 16000 2 1 [0, 0, 0] 0 = specFrameAt 4 20 16000 2 1 [0, 0, 0] 0 :=
  c1_frame_blend_matches_spec 4 20 16000 2 1 [0, 0, 0] 0 (by norm_num)

end TalkingRobot
